import Mathlib

/-!
Shallow embedding of the FileShare backend endpoint (server/fileShare.php).

The filesystem state is embedded as an explicit `Store`: an association list
of metadata files (uploads/meta/<id>.json) and an association list of byte
objects (uploads/<storedName>).  Clock readings and the random identifier
are passed as explicit parameters.  PHP string falsiness, the sanitizing
regexes, the zip preview loop, the pre-request expiry sweep and the three
request operations (upload, info, download) are translated function by
function from the source.
-/

set_option maxHeartbeats 1000000

namespace FileShare

/-- PHP falsiness of a string value: the empty string and the string 0. -/
def phpFalsyStr (s : String) : Bool := s == "" || s == "0"

/-- One character of preg_replace with class [^A-Za-z0-9_.-] replaced by _ . -/
def sanitizeChar (c : Char) : Char :=
  if c.isAlphanum || c == '_' || c == '.' || c == '-' then c else '_'

/-- safeName: preg_replace of every character outside [A-Za-z0-9_.-] by _ . -/
def safeNameOf (s : String) : String := String.mk (s.toList.map sanitizeChar)

/-- id sanitization on GET: preg_replace removing every character outside [a-zA-Z0-9]. -/
def stripId (s : String) : String := String.mk (s.toList.filter Char.isAlphanum)

/-- Upload directory constant (uploads/). -/
def uploadDir : String := "uploads"

/-- TTL in hours (48). -/
def expirationHours : Int := 48

/-- 1 GiB safety cap on uploads. -/
def maxSize : Nat := 1024 * 1024 * 1024

/-- Base URL used when building the returned download link. -/
def baseUrlStr : String := "http://localhost/fileShare.php"

/-- Association-list lookup by string key: the first binding wins, as for files. -/
def lookupKey {α : Type} (k : String) : List (String × α) → Option α
  | [] => none
  | q :: rest => if q.1 = k then some q.2 else lookupKey k rest

/-- unlink: remove the binding(s) for a key. -/
def removeKey {α : Type} (k : String) (l : List (String × α)) : List (String × α) :=
  l.filter (fun q => q.1 ≠ k)

/-- One central-directory entry of a zip archive: logical name and uncompressed size. -/
structure ZipEntry where
  name : String
  size : Nat
deriving DecidableEq, Repr

/-- substr($name, -1) === '/' : a pure-directory placeholder entry. -/
def isDirPlaceholder (e : ZipEntry) : Bool := e.name.toList.getLast? == some '/'

/-- An entry that carries content (not a directory placeholder). -/
def isContentEntry (e : ZipEntry) : Bool := !(isDirPlaceholder e)

/-- The zip preview loop: collect content entries in directory order; once
`limit` entries are collected, look ahead for any further content entry to
decide truncation, then stop. -/
def zipScan : Nat → List ZipEntry → List (String × Nat) × Bool
  | _, [] => ([], false)
  | limit, e :: rest =>
    if isContentEntry e then
      if limit ≤ 1 then
        ([(e.name, e.size)], rest.any isContentEntry)
      else
        let r := zipScan (limit - 1) rest
        ((e.name, e.size) :: r.1, r.2)
    else zipScan limit rest

/-- A stored byte object: its bytes, plus whether the zip library can open it
(`zipView = some entries` when ZipArchive::open succeeds and lists `entries`). -/
structure FileContent where
  bytes : List Nat
  zipView : Option (List ZipEntry)
deriving DecidableEq, Repr

/-- buildZipPreview: empty result if the file is absent or cannot be opened as
a zip archive, otherwise the bounded scan of its entries. -/
def buildZipPreview (objects : List (String × FileContent)) (filePath : String)
    (limit : Nat) : List (String × Nat) × Bool :=
  match lookupKey filePath objects with
  | none => ([], false)
  | some fc =>
    match fc.zipView with
    | none => ([], false)
    | some entries => zipScan limit entries

/-- Characters after the last slash of a path (basename). -/
def basenameChars (p : String) : List Char :=
  (p.toList.reverse.takeWhile (fun c => c ≠ '/')).reverse

/-- pathinfo PATHINFO_EXTENSION: characters after the last dot of the basename. -/
def extensionOf (p : String) : String :=
  let b := basenameChars p
  if b.contains '.' then String.mk ((b.reverse.takeWhile (fun c => c ≠ '.')).reverse)
  else ""

/-- isZipFile: falsy paths are not zips; otherwise the lowercased extension is zip. -/
def isZipFile (p : String) : Bool :=
  if phpFalsyStr p then false
  else (extensionOf p).toList.map Char.toLower == ("zip").toList

/-- A parsed metadata record (the JSON object written at upload time).
`expiresAt`/`uploadedAt` are `none` when the field is missing or empty. -/
structure MetaRec where
  id : String
  filename : String
  storedName : String
  path : String
  size : Nat
  expiresAt : Option Int
  uploadedAt : Option Int
deriving DecidableEq, Repr

/-- Content of one metadata file: either undecodable JSON (json_decode falsy)
or a parsed record. -/
inductive MetaContent where
  | malformed
  | record (m : MetaRec)
deriving DecidableEq, Repr

/-- The durable state: metadata files keyed by id, byte objects keyed by path. -/
structure Store where
  metas : List (String × MetaContent)
  objects : List (String × FileContent)
deriving DecidableEq, Repr

/-- Should cleanupExpired delete this metadata file?  Undecodable contents and
missing/empty expiresAt are skipped; otherwise strict `expiresAt < now`. -/
def metaExpired (now : Int) : MetaContent → Bool
  | .malformed => false
  | .record m =>
    match m.expiresAt with
    | none => false
    | some e => e < now

/-- Does this metadata binding cause cleanupExpired to unlink the object at
path `p`?  Requires an expired record with a truthy path equal to `p`. -/
def expiredPointsTo (now : Int) (p : String) (q : String × MetaContent) : Bool :=
  match q.2 with
  | .malformed => false
  | .record m =>
    match m.expiresAt with
    | none => false
    | some e => decide (e < now) && !(phpFalsyStr m.path) && (m.path == p)

/-- The foreach loop of cleanupExpired: visit each metadata file in order;
skip undecodable ones and ones with missing/empty expiresAt; for expired ones
unlink the pointed-to object (if the path is truthy) and drop the metadata. -/
def sweepGo (now : Int) : List (String × MetaContent) → List (String × FileContent) →
    List (String × MetaContent) × List (String × FileContent)
  | [], objs => ([], objs)
  | q :: rest, objs =>
    match q.2 with
    | .malformed =>
      let r := sweepGo now rest objs
      (q :: r.1, r.2)
    | .record m =>
      match m.expiresAt with
      | none =>
        let r := sweepGo now rest objs
        (q :: r.1, r.2)
      | some e =>
        if e < now then
          sweepGo now rest (if phpFalsyStr m.path then objs else removeKey m.path objs)
        else
          let r := sweepGo now rest objs
          (q :: r.1, r.2)

/-- cleanupExpired: the sweep run over the whole store. -/
def cleanupExpired (now : Int) (s : Store) : Store :=
  { metas := (sweepGo now s.metas s.objects).1, objects := (sweepGo now s.metas s.objects).2 }

/-- originalName: the submitted filename, or fileshare.bin when it is falsy. -/
def originalNameOf (n : String) : String :=
  if phpFalsyStr n then "fileshare.bin" else n

/-- storedName: generated id, two underscores, sanitized name (fallback if falsy). -/
def storedNameOf (newId : String) (originalName : String) : String :=
  let safeName := safeNameOf originalName
  newId ++ "__" ++ (if phpFalsyStr safeName then "fileshare.bin" else safeName)

/-- targetPath: the stored object's path inside the upload directory. -/
def targetPathOf (newId : String) (n : String) : String :=
  uploadDir ++ "/" ++ storedNameOf newId (originalNameOf n)

/-- The metadata record written for a successful upload of `len` bytes at `now`. -/
def uploadRecord (newId : String) (n : String) (len : Nat) (now : Int) : MetaRec :=
  { id := newId
    filename := originalNameOf n
    storedName := storedNameOf newId (originalNameOf n)
    path := targetPathOf newId n
    size := len
    expiresAt := some (now + expirationHours * 3600)
    uploadedAt := some now }

/-- One part of the multipart POST body: submitted filename, PHP upload error
code (0 = UPLOAD_ERR_OK), and the payload bytes ($_FILES size is their count). -/
structure FilePart where
  name : String
  err : Nat
  content : List Nat
deriving DecidableEq, Repr

/-- The store after committing an upload: object written, then metadata written
(both by overwriting any previous file of the same name). -/
def uploadCommit (newId : String) (up : FilePart) (now : Int)
    (zv : Option (List ZipEntry)) (s : Store) : Store :=
  let m := uploadRecord newId up.name up.content.length now
  { metas := (newId, MetaContent.record m) :: removeKey newId s.metas
    objects := (m.path, { bytes := up.content, zipView := zv }) :: removeKey m.path s.objects }

/-- A POST request: the action field and the optional file part. -/
structure UploadReq where
  action : String
  file : Option FilePart
deriving DecidableEq, Repr

/-- Outcome of the POST handler, mirroring status codes 400/413/500/200. -/
inductive UploadResult where
  | badRequest (msg : String)
  | tooLarge
  | internalError
  | ok (id : String) (filename : String) (downloadUrl : String) (expiresAt : Int) (size : Nat)
deriving DecidableEq, Repr

/-- The POST upload handler (lines 133-184): validates action, file presence,
error code and size cap, then moves the bytes and writes the metadata.
`newId` stands for bin2hex(random_bytes(6)), `moveOk` for the success of
move_uploaded_file, `zv` for whether the written bytes open as a zip. -/
def handlePost (req : UploadReq) (newId : String) (now : Int) (moveOk : Bool)
    (zv : Option (List ZipEntry)) (s : Store) : UploadResult × Store :=
  if req.action ≠ "upload" then (.badRequest ("Invalid action"), s)
  else
    match req.file with
    | none => (.badRequest ("Missing file payload"), s)
    | some up =>
      if up.err ≠ 0 then (.badRequest ("Upload failed"), s)
      else if maxSize < up.content.length then (.tooLarge, s)
      else if moveOk = false then (.internalError, s)
      else
        (.ok newId (originalNameOf up.name) (baseUrlStr ++ "?id=" ++ newId)
          (now + expirationHours * 3600) up.content.length,
         uploadCommit newId up now zv s)

/-- The info payload returned on GET with the info flag. -/
structure FileInfo where
  id : String
  filename : String
  size : Nat
  expiresAt : Option Int
  uploadedAt : Option Int
  isZip : Bool
  zipContents : List (String × Nat)
  zipTruncated : Bool
deriving DecidableEq, Repr

/-- Builds the info payload for a live record, merging in the zip preview when
the path or stored name carries a zip extension. -/
def infoOf (objects : List (String × FileContent)) (m : MetaRec) : FileInfo :=
  let zipFlag := isZipFile m.path || isZipFile m.storedName
  let zp := if zipFlag then buildZipPreview objects m.path 200
            else (([] : List (String × Nat)), false)
  { id := m.id, filename := m.filename, size := m.size, expiresAt := m.expiresAt,
    uploadedAt := m.uploadedAt, isZip := zipFlag, zipContents := zp.1, zipTruncated := zp.2 }

/-- Outcome of the GET handler: 400, 404, 410, a fatal strict-types TypeError
(missing expiresAt on a record with live bytes), the info JSON, or the
streamed download with its Content-Length, Content-Disposition filename,
X-Fileshare-Filename header and body bytes. -/
inductive GetResult where
  | badRequest
  | notFound
  | gone
  | fatal
  | infoOk (info : FileInfo)
  | downloadOk (contentLength : Nat) (disposition : String) (fileshareName : String)
      (body : List Nat)
deriving DecidableEq, Repr

/-- The GET handler (lines 186-257): sanitize the id, reject falsy ids, look
up and decode the metadata, self-heal inconsistent records, enforce expiry
with cleanup, then answer the info or download request. -/
def handleGet (isInfo : Bool) (rawId : String) (now : Int) (s : Store) : GetResult × Store :=
  if phpFalsyStr (stripId rawId) then (.badRequest, s)
  else
    match lookupKey (stripId rawId) s.metas with
    | none => (.notFound, s)
    | some MetaContent.malformed =>
      (.notFound, { s with metas := removeKey (stripId rawId) s.metas })
    | some (MetaContent.record m) =>
      if phpFalsyStr m.path then
        (.notFound, { s with metas := removeKey (stripId rawId) s.metas })
      else
        match lookupKey m.path s.objects with
        | none => (.notFound, { s with metas := removeKey (stripId rawId) s.metas })
        | some fc =>
          match m.expiresAt with
          | none => (.fatal, s)
          | some e =>
            if e < now then
              (.gone, { metas := removeKey (stripId rawId) s.metas,
                        objects := removeKey m.path s.objects })
            else if isInfo then
              (.infoOk (infoOf s.objects m), s)
            else
              (.downloadOk m.size m.filename m.filename fc.bytes, s)

/-- A full GET request cycle: cleanupExpired runs first, then the handler. -/
def serveGet (isInfo : Bool) (rawId : String) (now : Int) (s : Store) : GetResult × Store :=
  handleGet isInfo rawId now (cleanupExpired now s)

/-- A full POST request cycle: cleanupExpired runs first, then the handler. -/
def servePost (req : UploadReq) (newId : String) (now : Int) (moveOk : Bool)
    (zv : Option (List ZipEntry)) (s : Store) : UploadResult × Store :=
  handlePost req newId now moveOk zv (cleanupExpired now s)

/-- Modelled from the spec: stripping a requested id down to the identifier
generator's output alphabet, lowercase hexadecimal digits (the generator is
bin2hex over random bytes).  This is the comparison point for the claim that
id validation strips to the generator's alphabet; the code strips to the
larger alphanumeric alphabet instead. -/
def stripIdSpecLowercaseHex (s : String) : String :=
  String.mk (s.toList.filter (fun c => c.isDigit || ('a' ≤ c && c ≤ 'f')))

/-! ### Association-list lemmas -/

theorem lookupKey_eq_none_iff {α : Type} (k : String) (l : List (String × α)) :
    lookupKey k l = none ↔ ∀ q ∈ l, q.1 ≠ k := by
  induction l with
  | nil => simp [lookupKey]
  | cons q rest ih =>
    by_cases hq : q.1 = k
    · simp [lookupKey, hq]
    · simp [lookupKey, hq, ih]

theorem lookupKey_mem {α : Type} {k : String} {v : α} {l : List (String × α)}
    (h : lookupKey k l = some v) : (k, v) ∈ l := by
  induction l with
  | nil => simp [lookupKey] at h
  | cons q rest ih =>
    obtain ⟨a, b⟩ := q
    by_cases hq : a = k
    · subst hq
      simp [lookupKey] at h
      subst h
      exact List.mem_cons_self _ _
    · simp [lookupKey, hq] at h
      exact List.mem_cons_of_mem _ (ih h)

theorem lookupKey_filter_pos {α : Type} {p : String × α → Bool} {k : String} {v : α}
    {l : List (String × α)} (h : lookupKey k l = some v) (hp : p (k, v) = true) :
    lookupKey k (l.filter p) = some v := by
  induction l with
  | nil => simp [lookupKey] at h
  | cons q rest ih =>
    obtain ⟨a, b⟩ := q
    by_cases hq : a = k
    · subst hq
      simp [lookupKey] at h
      subst h
      simp [List.filter_cons, hp, lookupKey]
    · simp only [lookupKey, hq, if_neg, ite_false] at h
      rw [List.filter_cons]
      by_cases hpq : p (a, b) = true
      · simp only [hpq, if_true, lookupKey, hq, ite_false]
        exact ih h
      · simp only [Bool.not_eq_true] at hpq
        simp only [hpq, Bool.false_eq_true, if_false]
        exact ih h

theorem lookupKey_filter_none_of_none {α : Type} {p : String × α → Bool} {k : String}
    {l : List (String × α)} (h : lookupKey k l = none) :
    lookupKey k (l.filter p) = none := by
  rw [lookupKey_eq_none_iff] at h ⊢
  intro q hq
  exact h q (List.mem_of_mem_filter hq)

theorem lookupKey_filter_all_false {α : Type} {p : String × α → Bool} {k : String}
    (l : List (String × α)) (h : ∀ b : α, p (k, b) = false) :
    lookupKey k (l.filter p) = none := by
  rw [lookupKey_eq_none_iff]
  intro q hq hk
  have hmem := List.of_mem_filter hq
  obtain ⟨a, b⟩ := q
  simp only at hk
  subst hk
  rw [h b] at hmem
  exact Bool.false_ne_true hmem

theorem lookupKey_filter_nodup_neg {α : Type} {p : String × α → Bool} {k : String} {v : α}
    {l : List (String × α)} (hnd : (l.map Prod.fst).Nodup)
    (h : lookupKey k l = some v) (hp : p (k, v) = false) :
    lookupKey k (l.filter p) = none := by
  induction l with
  | nil => simp [lookupKey] at h
  | cons q rest ih =>
    obtain ⟨a, b⟩ := q
    simp only [List.map_cons, List.nodup_cons] at hnd
    by_cases hq : a = k
    · subst hq
      simp [lookupKey] at h
      subst h
      rw [List.filter_cons]
      simp only [hp, Bool.false_eq_true, if_false]
      rw [lookupKey_eq_none_iff]
      intro r hr hk
      exact hnd.1 (hk ▸ List.mem_map_of_mem Prod.fst (List.mem_of_mem_filter hr))
    · simp only [lookupKey, hq, if_false, ite_false] at h
      rw [List.filter_cons]
      by_cases hpq : p (a, b) = true
      · simp only [hpq, if_true, lookupKey, hq, ite_false]
        exact ih hnd.2 h
      · simp only [Bool.not_eq_true] at hpq
        simp only [hpq, Bool.false_eq_true, if_false]
        exact ih hnd.2 h

theorem lookupKey_removeKey_self {α : Type} (k : String) (l : List (String × α)) :
    lookupKey k (removeKey k l) = none := by
  unfold removeKey
  apply lookupKey_filter_all_false
  intro b
  simp

theorem mem_removeKey {α : Type} {k : String} {q : String × α} {l : List (String × α)}
    (h : q ∈ removeKey k l) : q ∈ l :=
  List.mem_of_mem_filter h

/-! ### Sweep characterization -/

theorem expiredPointsTo_eq_false {now : Int} {q : String × MetaContent}
    (h : metaExpired now q.2 = false) (p : String) : expiredPointsTo now p q = false := by
  obtain ⟨a, c⟩ := q
  cases c with
  | malformed => rfl
  | record m =>
    cases he : m.expiresAt with
    | none => simp [expiredPointsTo, he]
    | some e =>
      simp only [metaExpired, he] at h
      simp [expiredPointsTo, he, h]

theorem sweepGo_metas (now : Int) (ms : List (String × MetaContent)) :
    ∀ objs : List (String × FileContent),
      (sweepGo now ms objs).1 = ms.filter (fun q => !(metaExpired now q.2)) := by
  induction ms with
  | nil => intro objs; simp [sweepGo]
  | cons q rest ih =>
    intro objs
    obtain ⟨a, c⟩ := q
    cases c with
    | malformed => simp [sweepGo, metaExpired, List.filter_cons, ih]
    | record m =>
      cases he : m.expiresAt with
      | none => simp [sweepGo, metaExpired, he, List.filter_cons, ih]
      | some e =>
        by_cases hlt : e < now
        · simp [sweepGo, metaExpired, he, hlt, List.filter_cons, ih]
        · simp [sweepGo, metaExpired, he, hlt, List.filter_cons, ih]

theorem sweepGo_objects (now : Int) (ms : List (String × MetaContent)) :
    ∀ objs : List (String × FileContent),
      (sweepGo now ms objs).2 = objs.filter (fun o => !(ms.any (expiredPointsTo now o.1))) := by
  induction ms with
  | nil => intro objs; simp [sweepGo]
  | cons q rest ih =>
    intro objs
    have hskip : metaExpired now q.2 = false →
        (sweepGo now (q :: rest) objs).2 =
          objs.filter (fun o => !((q :: rest).any (expiredPointsTo now o.1))) := by
      intro hne
      have hstep : (sweepGo now (q :: rest) objs).2 = (sweepGo now rest objs).2 := by
        obtain ⟨a, c⟩ := q
        cases c with
        | malformed => simp [sweepGo]
        | record m =>
          cases he : m.expiresAt with
          | none => simp [sweepGo, he]
          | some e =>
            simp only [metaExpired, he] at hne
            simp [sweepGo, he, of_decide_eq_false hne]
      rw [hstep, ih]
      apply List.filter_congr
      intro o _
      simp [List.any_cons, expiredPointsTo_eq_false hne]
    obtain ⟨a, c⟩ := q
    cases c with
    | malformed => exact hskip rfl
    | record m =>
      cases he : m.expiresAt with
      | none => exact hskip (by simp [metaExpired, he])
      | some e =>
        by_cases hlt : e < now
        · by_cases hfal : phpFalsyStr m.path = true
          · have hstep : (sweepGo now ((a, MetaContent.record m) :: rest) objs).2 =
                (sweepGo now rest objs).2 := by
              simp [sweepGo, he, hlt, hfal]
            rw [hstep, ih]
            apply List.filter_congr
            intro o _
            simp [List.any_cons, expiredPointsTo, he, hlt, hfal]
          · simp only [Bool.not_eq_true] at hfal
            have hstep : (sweepGo now ((a, MetaContent.record m) :: rest) objs).2 =
                (sweepGo now rest (removeKey m.path objs)).2 := by
              simp [sweepGo, he, hlt, hfal]
            rw [hstep, ih, removeKey, List.filter_filter]
            apply List.filter_congr
            intro o _
            simp only [List.any_cons, expiredPointsTo, he, hlt, decide_True, hfal,
              Bool.not_false, Bool.true_and, Bool.not_or]
            by_cases hp : m.path = o.1
            · simp [hp]
            · have hp2 : o.1 ≠ m.path := fun hx => hp hx.symm
              simp [hp, hp2]
        · exact hskip (by simp [metaExpired, he, hlt])

theorem cleanupExpired_metas (now : Int) (s : Store) :
    (cleanupExpired now s).metas = s.metas.filter (fun q => !(metaExpired now q.2)) :=
  sweepGo_metas now s.metas s.objects

theorem cleanupExpired_objects (now : Int) (s : Store) :
    (cleanupExpired now s).objects =
      s.objects.filter (fun o => !(s.metas.any (expiredPointsTo now o.1))) :=
  sweepGo_objects now s.metas s.objects

/-! ### Zip preview characterization -/

theorem any_eq_decide_filter {α : Type} (p : α → Bool) (l : List α) :
    l.any p = decide (0 < (l.filter p).length) := by
  induction l with
  | nil => simp
  | cons a rest ih =>
    by_cases h : p a = true
    · simp [List.any_cons, List.filter_cons, h]
    · simp only [Bool.not_eq_true] at h
      simp [List.any_cons, List.filter_cons, h, ih]

theorem zipScan_eq (entries : List ZipEntry) :
    ∀ limit : Nat, 1 ≤ limit →
      zipScan limit entries =
        (((entries.filter isContentEntry).take limit).map (fun e => (e.name, e.size)),
         decide ((entries.filter isContentEntry).length > limit)) := by
  induction entries with
  | nil => intro limit hl; simp [zipScan]
  | cons e rest ih =>
    intro limit hl
    by_cases hc : isContentEntry e = true
    · obtain ⟨k, rfl⟩ : ∃ k, limit = k + 1 := ⟨limit - 1, by omega⟩
      by_cases h1 : k = 0
      · subst h1
        simp only [zipScan, hc, if_true, Nat.le_refl, ite_true, List.filter_cons,
          List.take_succ_cons, List.take_zero, List.map_cons, List.map_nil]
        refine Prod.ext rfl ?_
        simp only [any_eq_decide_filter, List.length_cons, gt_iff_lt]
        exact decide_eq_decide.mpr (by omega)
      · have hk : 1 ≤ k := by omega
        have hle : ¬ (k + 1 ≤ 1) := by omega
        simp only [zipScan, hc, if_true, hle, ite_false, Nat.add_sub_cancel,
          ih k hk, List.filter_cons, List.take_succ_cons, List.map_cons, gt_iff_lt]
        refine Prod.ext rfl ?_
        simp only [List.length_cons]
        exact decide_eq_decide.mpr (by omega)
    · simp only [Bool.not_eq_true] at hc
      simp [zipScan, hc, List.filter_cons, ih limit hl]

/-! ### String and path lemmas -/

theorem phpFalsyStr_eq_false_of_length {s : String} (h : 2 ≤ s.length) :
    phpFalsyStr s = false := by
  have h1 : s ≠ "" := by intro e; subst e; exact absurd h (by decide)
  have h2 : s ≠ "0" := by intro e; subst e; exact absurd h (by decide)
  simp [phpFalsyStr, Bool.or_eq_false_iff, beq_eq_false_iff_ne, h1, h2]

theorem storedNameOf_data (newId n : String) :
    (storedNameOf newId n).data =
      newId.data ++ ("__" : String).data ++
        (if phpFalsyStr (safeNameOf n) = true then ("fileshare.bin" : String).data
         else (safeNameOf n).data) := by
  unfold storedNameOf
  by_cases h : phpFalsyStr (safeNameOf n) = true <;>
    simp [h, String.data_append]

theorem targetPathOf_length (newId n : String) :
    (targetPathOf newId n).length =
      8 + (storedNameOf newId (originalNameOf n)).length := by
  have h7 : ("uploads" : String).length = 7 := rfl
  have h1 : ("/" : String).length = 1 := rfl
  have h8 : ("uploads/" : String).length = 8 := rfl
  simp [targetPathOf, uploadDir, String.length_append, h7, h1, h8]

theorem phpFalsyStr_targetPathOf (newId n : String) :
    phpFalsyStr (targetPathOf newId n) = false := by
  apply phpFalsyStr_eq_false_of_length
  rw [targetPathOf_length]
  omega

theorem mem_storedNameOf {newId n : String} {c : Char}
    (hc : c ∈ (storedNameOf newId n).data) :
    c ∈ newId.data ∨ c = '_' ∨ c.isAlphanum = true ∨ c = '.' ∨ c = '-' := by
  rw [storedNameOf_data] at hc
  simp only [List.mem_append] at hc
  rcases hc with (h | h) | h
  · exact Or.inl h
  · right; left
    have : ∀ x ∈ ("__" : String).data, x = '_' := by decide
    exact this c h
  · by_cases hf : phpFalsyStr (safeNameOf n) = true
    · rw [if_pos hf] at h
      have : ∀ x ∈ ("fileshare.bin" : String).data, x.isAlphanum = true ∨ x = '.' := by decide
      rcases this c h with h2 | h2
      · exact Or.inr (Or.inr (Or.inl h2))
      · exact Or.inr (Or.inr (Or.inr (Or.inl h2)))
    · rw [if_neg hf] at h
      have h2 : c ∈ n.toList.map sanitizeChar := h
      obtain ⟨c0, _, rfl⟩ := List.mem_map.mp h2
      unfold sanitizeChar
      by_cases hcond : (c0.isAlphanum || c0 == '_' || c0 == '.' || c0 == '-') = true
      · rw [if_pos hcond]
        simp only [Bool.or_eq_true, beq_iff_eq] at hcond
        rcases hcond with ((h3 | h3) | h3) | h3
        · exact Or.inr (Or.inr (Or.inl h3))
        · exact Or.inr (Or.inl h3)
        · exact Or.inr (Or.inr (Or.inr (Or.inl h3)))
        · exact Or.inr (Or.inr (Or.inr (Or.inr h3)))
      · rw [if_neg hcond]
        exact Or.inr (Or.inl rfl)

theorem storedNameOf_inj {id1 id2 n : String}
    (h : storedNameOf id1 n = storedNameOf id2 n) : id1 = id2 := by
  have hd := congrArg String.data h
  rw [storedNameOf_data, storedNameOf_data] at hd
  exact String.ext (List.append_cancel_right (List.append_cancel_right hd))

/-! ### GET handler branch lemmas -/

theorem handleGet_badRequest {isInfo : Bool} {raw : String} {now : Int} {s : Store}
    (hid : phpFalsyStr (stripId raw) = true) :
    handleGet isInfo raw now s = (.badRequest, s) := by
  simp [handleGet, hid]

theorem handleGet_noMeta {isInfo : Bool} {raw : String} {now : Int} {s : Store}
    (hid : phpFalsyStr (stripId raw) = false)
    (hmeta : lookupKey (stripId raw) s.metas = none) :
    handleGet isInfo raw now s = (.notFound, s) := by
  simp [handleGet, hid, hmeta]

theorem handleGet_malformed {isInfo : Bool} {raw : String} {now : Int} {s : Store}
    (hid : phpFalsyStr (stripId raw) = false)
    (hmeta : lookupKey (stripId raw) s.metas = some MetaContent.malformed) :
    handleGet isInfo raw now s =
      (.notFound, { s with metas := removeKey (stripId raw) s.metas }) := by
  simp [handleGet, hid, hmeta]

theorem handleGet_noBytes {isInfo : Bool} {raw : String} {now : Int} {s : Store} {m : MetaRec}
    (hid : phpFalsyStr (stripId raw) = false)
    (hmeta : lookupKey (stripId raw) s.metas = some (MetaContent.record m))
    (hmiss : phpFalsyStr m.path = true ∨ lookupKey m.path s.objects = none) :
    handleGet isInfo raw now s =
      (.notFound, { s with metas := removeKey (stripId raw) s.metas }) := by
  rcases hmiss with hp | ho
  · simp [handleGet, hid, hmeta, hp]
  · by_cases hp : phpFalsyStr m.path = true
    · simp [handleGet, hid, hmeta, hp]
    · simp only [Bool.not_eq_true] at hp
      simp [handleGet, hid, hmeta, hp, ho]

theorem handleGet_expired {isInfo : Bool} {raw : String} {now : Int} {s : Store}
    {m : MetaRec} {fc : FileContent} {e : Int}
    (hid : phpFalsyStr (stripId raw) = false)
    (hmeta : lookupKey (stripId raw) s.metas = some (MetaContent.record m))
    (hpath : phpFalsyStr m.path = false)
    (hobj : lookupKey m.path s.objects = some fc)
    (he : m.expiresAt = some e) (hlt : e < now) :
    handleGet isInfo raw now s =
      (.gone, { metas := removeKey (stripId raw) s.metas,
                objects := removeKey m.path s.objects }) := by
  simp [handleGet, hid, hmeta, hpath, hobj, he, hlt]

theorem handleGet_download {raw : String} {now : Int} {s : Store}
    {m : MetaRec} {fc : FileContent} {e : Int}
    (hid : phpFalsyStr (stripId raw) = false)
    (hmeta : lookupKey (stripId raw) s.metas = some (MetaContent.record m))
    (hpath : phpFalsyStr m.path = false)
    (hobj : lookupKey m.path s.objects = some fc)
    (he : m.expiresAt = some e) (hlt : ¬ e < now) :
    handleGet false raw now s =
      (.downloadOk m.size m.filename m.filename fc.bytes, s) := by
  simp [handleGet, hid, hmeta, hpath, hobj, he, hlt]

theorem handleGet_info {raw : String} {now : Int} {s : Store}
    {m : MetaRec} {fc : FileContent} {e : Int}
    (hid : phpFalsyStr (stripId raw) = false)
    (hmeta : lookupKey (stripId raw) s.metas = some (MetaContent.record m))
    (hpath : phpFalsyStr m.path = false)
    (hobj : lookupKey m.path s.objects = some fc)
    (he : m.expiresAt = some e) (hlt : ¬ e < now) :
    handleGet true raw now s = (.infoOk (infoOf s.objects m), s) := by
  simp [handleGet, hid, hmeta, hpath, hobj, he, hlt]

/-! ### Sweep interaction lemmas -/

theorem cleanup_keeps_meta {now : Int} {s : Store} {idv : String} {c : MetaContent}
    (h : lookupKey idv s.metas = some c) (hc : metaExpired now c = false) :
    lookupKey idv (cleanupExpired now s).metas = some c := by
  rw [cleanupExpired_metas]
  exact lookupKey_filter_pos h (by simp [hc])

theorem cleanup_keeps_object {now : Int} {s : Store} {p : String} {b : FileContent}
    (h : lookupKey p s.objects = some b)
    (hno : s.metas.any (expiredPointsTo now p) = false) :
    lookupKey p (cleanupExpired now s).objects = some b := by
  rw [cleanupExpired_objects]
  exact lookupKey_filter_pos h (by simp [hno])

theorem cleanup_drops_meta {now : Int} {s : Store} {idv : String} {c : MetaContent}
    (hnd : (s.metas.map Prod.fst).Nodup)
    (h : lookupKey idv s.metas = some c) (hc : metaExpired now c = true) :
    lookupKey idv (cleanupExpired now s).metas = none := by
  rw [cleanupExpired_metas]
  exact lookupKey_filter_nodup_neg hnd h (by simp [hc])

theorem cleanup_drops_object {now : Int} {s : Store} {p : String}
    (hsome : s.metas.any (expiredPointsTo now p) = true) :
    lookupKey p (cleanupExpired now s).objects = none := by
  rw [cleanupExpired_objects]
  apply lookupKey_filter_all_false
  intro b
  simp [hsome]

/-! ### Upload handler lemma -/

theorem handlePost_success {up : FilePart} {newId : String} {now : Int}
    {zv : Option (List ZipEntry)} {s : Store}
    (herr : up.err = 0) (hsize : up.content.length ≤ maxSize) :
    handlePost ⟨"upload", some up⟩ newId now true zv s =
      (.ok newId (originalNameOf up.name) (baseUrlStr ++ "?id=" ++ newId)
        (now + expirationHours * 3600) up.content.length,
       uploadCommit newId up now zv s) := by
  simp [handlePost, herr, Nat.not_lt.mpr hsize]

/-! ### Claim C3 -/

/-- C3 counterexample: a record whose `expiresAt` equals `now` exactly
(expiresAt = 100, now = 100, so `expiresAt <= now` holds) survives the sweep
untouched, because cleanupExpired deletes only on strict `expiresAt < now`.
The claim states such a record is removed. -/
theorem c3_counterexample :
    (("aa", MetaContent.record
        { id := "aa", filename := "f", storedName := "sf", path := "p", size := 1,
          expiresAt := some 100, uploadedAt := some 0 }) ∈
      (cleanupExpired 100
        { metas := [("aa", MetaContent.record
            { id := "aa", filename := "f", storedName := "sf", path := "p", size := 1,
              expiresAt := some 100, uploadedAt := some 0 })],
          objects := [("p", { bytes := [9], zipView := none })] }).metas)
    ∧ (100 : Int) ≤ 100 := by
  constructor
  · decide
  · decide

/-- C3 (amended): cleanupExpired removes exactly the decodable records whose
`expiresAt` is strictly before now (`expiresAt < now`); for each such record
the backing object it points to (when the path is set) is deleted together
with the metadata record, and every other metadata record and every object
not pointed to by such a record is kept. -/
theorem c3_sweep_removes_exactly_strict (now : Int) (s : Store) :
    (∀ (idv : String) (m : MetaRec) (e : Int), m.expiresAt = some e → e < now →
        (idv, MetaContent.record m) ∉ (cleanupExpired now s).metas)
    ∧ (∀ q : String × MetaContent,
        q ∈ (cleanupExpired now s).metas ↔ q ∈ s.metas ∧ metaExpired now q.2 = false)
    ∧ (∀ o : String × FileContent,
        o ∈ (cleanupExpired now s).objects ↔
          o ∈ s.objects ∧ s.metas.any (expiredPointsTo now o.1) = false) := by
  have hmem : ∀ q : String × MetaContent,
      q ∈ (cleanupExpired now s).metas ↔ q ∈ s.metas ∧ metaExpired now q.2 = false := by
    intro q
    rw [cleanupExpired_metas, List.mem_filter]
    simp [Bool.not_eq_true']
  refine ⟨?_, hmem, ?_⟩
  · intro idv m e he hlt hin
    have h2 := (hmem _).mp hin
    simp [metaExpired, he, hlt] at h2
  · intro o
    rw [cleanupExpired_objects, List.mem_filter]
    simp [Bool.not_eq_true']

/-- C3 witness: on a store holding one record expired strictly before now and
one live record, the sweep removes the first together with its bytes and keeps
the second with its bytes. -/
theorem c3_witness :
    (("aa", MetaContent.record
        { id := "aa", filename := "f", storedName := "sf", path := "pa", size := 1,
          expiresAt := some 0, uploadedAt := some 0 }) ∉
      (cleanupExpired 1
        { metas := [("aa", MetaContent.record
            { id := "aa", filename := "f", storedName := "sf", path := "pa", size := 1,
              expiresAt := some 0, uploadedAt := some 0 }),
           ("bb", MetaContent.record
            { id := "bb", filename := "g", storedName := "sg", path := "pb", size := 1,
              expiresAt := some 9, uploadedAt := some 0 })],
          objects := [("pa", { bytes := [1], zipView := none }),
                      ("pb", { bytes := [2], zipView := none })] }).metas)
    ∧ (("bb", MetaContent.record
        { id := "bb", filename := "g", storedName := "sg", path := "pb", size := 1,
          expiresAt := some 9, uploadedAt := some 0 }) ∈
      (cleanupExpired 1
        { metas := [("aa", MetaContent.record
            { id := "aa", filename := "f", storedName := "sf", path := "pa", size := 1,
              expiresAt := some 0, uploadedAt := some 0 }),
           ("bb", MetaContent.record
            { id := "bb", filename := "g", storedName := "sg", path := "pb", size := 1,
              expiresAt := some 9, uploadedAt := some 0 })],
          objects := [("pa", { bytes := [1], zipView := none }),
                      ("pb", { bytes := [2], zipView := none })] }).metas) := by
  constructor
  · exact (c3_sweep_removes_exactly_strict 1 _).1 ("aa") _ 0 rfl (by decide)
  · exact ((c3_sweep_removes_exactly_strict 1 _).2.1 _).mpr (by constructor <;> decide)

/-! ### Claim C10 -/

/-- C10 counterexample: a record whose expiresAt is missing shares its path
with a distinct expired record; the sweep keeps the malformed record but
deletes the bytes it points to (via the expired record), so the bytes it
points to are not left in place for every state of the store. -/
theorem c10_counterexample :
    (("aa", MetaContent.record
        { id := "aa", filename := "f", storedName := "s1", path := "uploads/x", size := 1,
          expiresAt := none, uploadedAt := none }) ∈
      (cleanupExpired 1
        { metas := [("aa", MetaContent.record
            { id := "aa", filename := "f", storedName := "s1", path := "uploads/x", size := 1,
              expiresAt := none, uploadedAt := none }),
           ("bb", MetaContent.record
            { id := "bb", filename := "g", storedName := "s2", path := "uploads/x", size := 1,
              expiresAt := some 0, uploadedAt := some 0 })],
          objects := [("uploads/x", { bytes := [1], zipView := none })] }).metas)
    ∧ lookupKey ("uploads/x")
        (cleanupExpired 1
          { metas := [("aa", MetaContent.record
              { id := "aa", filename := "f", storedName := "s1", path := "uploads/x", size := 1,
                expiresAt := none, uploadedAt := none }),
             ("bb", MetaContent.record
              { id := "bb", filename := "g", storedName := "s2", path := "uploads/x", size := 1,
                expiresAt := some 0, uploadedAt := some 0 })],
            objects := [("uploads/x", { bytes := [1], zipView := none })] }).objects = none := by
  constructor
  · decide
  · decide

/-- C10 (amended): the sweeper never deletes a metadata record whose contents
cannot be decoded or whose expiresAt is missing or empty; the bytes such a
record points to also survive the sweep unless some other expired decodable
record points at the same backing path; and a read-path access to an
undecodable record's id removes it and reports NotFound. -/
theorem c10_sweep_skips_malformed (now : Int) (s : Store) :
    (∀ (idv : String) (c : MetaContent),
        (c = MetaContent.malformed ∨ ∃ m : MetaRec, c = MetaContent.record m ∧ m.expiresAt = none) →
        (idv, c) ∈ s.metas → (idv, c) ∈ (cleanupExpired now s).metas)
    ∧ (∀ (p : String) (b : FileContent), lookupKey p s.objects = some b →
        s.metas.any (expiredPointsTo now p) = false →
        lookupKey p (cleanupExpired now s).objects = some b)
    ∧ (∀ (isInfo : Bool) (raw : String) (now2 : Int) (s2 : Store),
        phpFalsyStr (stripId raw) = false →
        lookupKey (stripId raw) s2.metas = some MetaContent.malformed →
        handleGet isInfo raw now2 s2 =
          (.notFound, { s2 with metas := removeKey (stripId raw) s2.metas })) := by
  refine ⟨?_, ?_, ?_⟩
  · intro idv c hc hin
    rw [cleanupExpired_metas, List.mem_filter]
    refine ⟨hin, ?_⟩
    rcases hc with rfl | ⟨m, rfl, hm⟩
    · simp [metaExpired]
    · simp [metaExpired, hm]
  · intro p b h1 h2
    exact cleanup_keeps_object h1 h2
  · intro isInfo raw now2 s2 h1 h2
    exact handleGet_malformed h1 h2

/-- C10 witness: in a store with one undecodable metadata file, one record
lacking expiresAt, and their backing bytes, the sweep keeps both records and
the bytes, and a GET for the undecodable id removes it and reports NotFound. -/
theorem c10_witness :
    (("aa", MetaContent.malformed) ∈
      (cleanupExpired 5
        { metas := [("aa", MetaContent.malformed),
            ("bb", MetaContent.record
              { id := "bb", filename := "g", storedName := "s2", path := "pb", size := 1,
                expiresAt := none, uploadedAt := none })],
          objects := [("pb", { bytes := [2], zipView := none })] }).metas)
    ∧ (("bb", MetaContent.record
        { id := "bb", filename := "g", storedName := "s2", path := "pb", size := 1,
          expiresAt := none, uploadedAt := none }) ∈
      (cleanupExpired 5
        { metas := [("aa", MetaContent.malformed),
            ("bb", MetaContent.record
              { id := "bb", filename := "g", storedName := "s2", path := "pb", size := 1,
                expiresAt := none, uploadedAt := none })],
          objects := [("pb", { bytes := [2], zipView := none })] }).metas)
    ∧ lookupKey ("pb")
        (cleanupExpired 5
          { metas := [("aa", MetaContent.malformed),
              ("bb", MetaContent.record
                { id := "bb", filename := "g", storedName := "s2", path := "pb", size := 1,
                  expiresAt := none, uploadedAt := none })],
            objects := [("pb", { bytes := [2], zipView := none })] }).objects =
        some { bytes := [2], zipView := none }
    ∧ handleGet true ("aa") 5
        { metas := [("aa", MetaContent.malformed)], objects := [] } =
        (.notFound, { metas := [], objects := [] }) := by
  refine ⟨?_, ?_, ?_, ?_⟩
  · exact (c10_sweep_skips_malformed 5 _).1 ("aa") _ (Or.inl rfl) (by decide)
  · exact (c10_sweep_skips_malformed 5 _).1 ("bb") _ (Or.inr ⟨_, rfl, rfl⟩) (by decide)
  · exact (c10_sweep_skips_malformed 5 _).2.1 ("pb") _ (by decide) (by decide)
  · exact (c10_sweep_skips_malformed 5 { metas := [], objects := [] }).2.2 true ("aa") 5
      { metas := [("aa", MetaContent.malformed)], objects := [] } (by decide) (by decide)

/-! ### Claim C7 -/

/-- C7 counterexample: the request id G contains no lowercase-hex character,
so stripping to the generator's output alphabet would leave the empty string
and demand BadRequest; the code keeps the alphanumeric G and performs the
store lookup, answering NotFound. -/
theorem c7_counterexample :
    stripIdSpecLowercaseHex ("G") = ""
    ∧ stripId ("G") = ("G")
    ∧ handleGet true ("G") 0 { metas := [], objects := [] } =
        (.notFound, { metas := [], objects := [] })
    ∧ GetResult.notFound ≠ GetResult.badRequest := by
  refine ⟨by decide, by decide, by decide, by decide⟩

/-- C7 (amended): the supplied id is first stripped of every character outside
the alphanumeric alphabet [A-Za-z0-9] (a strict superset of the generator's
lowercase-hex output alphabet) before lookup; a falsy stripped result (empty,
or the single character 0) fails with BadRequest without touching the store,
and the handler's behavior depends on the raw id only through its stripped
form. -/
theorem c7_id_sanitization (isInfo : Bool) (raw : String) (now : Int) (s : Store) :
    (phpFalsyStr (stripId raw) = true → handleGet isInfo raw now s = (.badRequest, s))
    ∧ (∀ raw2 : String, stripId raw = stripId raw2 →
        handleGet isInfo raw now s = handleGet isInfo raw2 now s)
    ∧ (∀ c ∈ (stripId raw).toList, c.isAlphanum = true) := by
  refine ⟨fun h => handleGet_badRequest h, ?_, ?_⟩
  · intro raw2 h
    unfold handleGet
    rw [h]
  · intro c hc
    have h2 : c ∈ raw.toList.filter Char.isAlphanum := hc
    exact List.of_mem_filter h2

/-- C7 witness: an id consisting only of punctuation strips to the empty
string and is rejected as BadRequest with the store untouched; two raw ids
stripping alike are answered alike; every stripped character is alphanumeric. -/
theorem c7_witness :
    handleGet true ("##!") 0
        { metas := [("x", MetaContent.malformed)], objects := [] } =
      (.badRequest, { metas := [("x", MetaContent.malformed)], objects := [] })
    ∧ handleGet false ("a-b1") 0 { metas := [], objects := [] } =
        handleGet false ("ab*1") 0 { metas := [], objects := [] }
    ∧ (∀ c ∈ (stripId ("a-b1")).toList, c.isAlphanum = true) := by
  refine ⟨?_, ?_, ?_⟩
  · exact (c7_id_sanitization true ("##!") 0 _).1 (by decide)
  · exact (c7_id_sanitization false ("a-b1") 0 _).2.1 ("ab*1") (by decide)
  · exact (c7_id_sanitization false ("a-b1") 0 { metas := [], objects := [] }).2.2

/-! ### Claim C5 -/

theorem filter_replicate_pos {α : Type} {p : α → Bool} {a : α} (h : p a = true) (n : Nat) :
    List.filter p (List.replicate n a) = List.replicate n a := by
  induction n with
  | zero => rfl
  | succ k ih => simp [List.replicate_succ, List.filter_cons, h, ih]

/-- C5: on a stored object that opens as a zip archive the preview returns the
first 200 content entries (directory placeholders skipped) in native order,
with truncated set exactly when a content entry exists past the 200th; a
missing or unopenable object yields an empty list and no truncation; an
archive of 500 content entries yields exactly 200 entries with truncated
true, one of 50 yields 50 with truncated false. -/
theorem c5_zip_preview (entries : List ZipEntry) (bs : List Nat) :
    (buildZipPreview [(("p" : String), { bytes := bs, zipView := some entries })] ("p") 200 =
      (((entries.filter isContentEntry).take 200).map (fun e => (e.name, e.size)),
       decide ((entries.filter isContentEntry).length > 200)))
    ∧ buildZipPreview [(("p" : String), { bytes := bs, zipView := none })] ("p") 200 = ([], false)
    ∧ buildZipPreview [] ("p") 200 = ([], false)
    ∧ (buildZipPreview
        [(("p" : String), FileContent.mk bs (some (List.replicate 500 (ZipEntry.mk ("f.txt") 1))))]
        ("p") 200).1.length = 200
    ∧ (buildZipPreview
        [(("p" : String), FileContent.mk bs (some (List.replicate 500 (ZipEntry.mk ("f.txt") 1))))]
        ("p") 200).2 = true
    ∧ (buildZipPreview
        [(("p" : String), FileContent.mk bs (some (List.replicate 50 (ZipEntry.mk ("f.txt") 1))))]
        ("p") 200).1.length = 50
    ∧ (buildZipPreview
        [(("p" : String), FileContent.mk bs (some (List.replicate 50 (ZipEntry.mk ("f.txt") 1))))]
        ("p") 200).2 = false := by
  have hgen : ∀ l : List ZipEntry,
      buildZipPreview [(("p" : String), { bytes := bs, zipView := some l })] ("p") 200 =
        (((l.filter isContentEntry).take 200).map (fun e => (e.name, e.size)),
         decide ((l.filter isContentEntry).length > 200)) := by
    intro l
    have : buildZipPreview [(("p" : String), { bytes := bs, zipView := some l })] ("p") 200 =
        zipScan 200 l := by
      simp [buildZipPreview, lookupKey]
    rw [this, zipScan_eq l 200 (by omega)]
  have hcontent : isContentEntry (ZipEntry.mk ("f.txt") 1) = true := by decide
  refine ⟨hgen entries, ?_, ?_, ?_, ?_, ?_, ?_⟩
  · simp [buildZipPreview, lookupKey]
  · simp [buildZipPreview, lookupKey]
  · rw [hgen, filter_replicate_pos hcontent]
    rw [List.take_replicate, List.map_replicate]
    rw [List.length_replicate]
    decide
  · rw [hgen, filter_replicate_pos hcontent]
    rw [List.length_replicate]
    decide
  · rw [hgen, filter_replicate_pos hcontent]
    rw [List.take_replicate, List.map_replicate]
    rw [List.length_replicate]
    decide
  · rw [hgen, filter_replicate_pos hcontent]
    rw [List.length_replicate]
    decide

/-! ### Claim C6 -/

/-- C6 counterexample: a present but empty payload (error code OK, zero
bytes) is not rejected: the upload succeeds and stores a record of size 0,
where the claim demands BadRequest for an empty payload. -/
theorem c6_counterexample :
    (handlePost ⟨("upload"), some { name := "a.txt", err := 0, content := [] }⟩
        ("aabbccddeeff") 0 true none { metas := [], objects := [] }).1 =
      UploadResult.ok ("aabbccddeeff") ("a.txt")
        ("http://localhost/fileShare.php?id=aabbccddeeff") 172800 0 := by
  decide

/-- C6 (amended): upload fails with BadRequest when the file part is missing
or carries a nonzero transport error code; a present empty payload is
accepted; a payload of exactly the 1 GiB cap succeeds; any payload strictly
over the cap fails with PayloadTooLarge; a failed move fails with
InternalError; and every failure leaves the store exactly unchanged (no
partial object, no metadata record). -/
theorem c6_upload_validation (newId n : String) (now : Int) (zv : Option (List ZipEntry))
    (s : Store) (payload : List Nat) (errc : Nat) :
    (handlePost ⟨("upload"), none⟩ newId now true zv s =
      (.badRequest ("Missing file payload"), s))
    ∧ (errc ≠ 0 →
        handlePost ⟨("upload"), some { name := n, err := errc, content := payload }⟩
          newId now true zv s = (.badRequest ("Upload failed"), s))
    ∧ (payload.length = maxSize →
        (handlePost ⟨("upload"), some { name := n, err := 0, content := payload }⟩
            newId now true zv s).1 =
          .ok newId (originalNameOf n) (baseUrlStr ++ "?id=" ++ newId)
            (now + expirationHours * 3600) payload.length)
    ∧ (maxSize < payload.length →
        handlePost ⟨("upload"), some { name := n, err := 0, content := payload }⟩
          newId now true zv s = (.tooLarge, s))
    ∧ (payload.length ≤ maxSize →
        handlePost ⟨("upload"), some { name := n, err := 0, content := payload }⟩
          newId now false zv s = (.internalError, s)) := by
  refine ⟨?_, ?_, ?_, ?_, ?_⟩
  · simp [handlePost]
  · intro h
    simp [handlePost, h]
  · intro h
    rw [handlePost_success rfl (le_of_eq h)]
  · intro h
    simp [handlePost, h]
  · intro h
    simp [handlePost, Nat.not_lt.mpr h]

/-- C6 witness: a payload of exactly maxSize bytes is accepted; one byte more
is rejected as PayloadTooLarge with the store unchanged; a nonzero error code
is rejected as BadRequest; a failed move is an InternalError. -/
theorem c6_witness :
    (handlePost ⟨("upload"), some (FilePart.mk ("a.txt") 0 (List.replicate maxSize 0))⟩
        ("aabbccddeeff") 0 true none { metas := [], objects := [] }).1 =
      .ok ("aabbccddeeff") (originalNameOf ("a.txt"))
        (baseUrlStr ++ "?id=" ++ ("aabbccddeeff"))
        (0 + expirationHours * 3600) (List.replicate maxSize 0).length
    ∧ handlePost ⟨("upload"), some (FilePart.mk ("a.txt") 0 (List.replicate (maxSize + 1) 0))⟩
        ("aabbccddeeff") 0 true none { metas := [], objects := [] } =
      (.tooLarge, { metas := [], objects := [] })
    ∧ handlePost ⟨("upload"), some { name := "a.txt", err := 4, content := [] }⟩
        ("aabbccddeeff") 0 true none { metas := [], objects := [] } =
      (.badRequest ("Upload failed"), { metas := [], objects := [] })
    ∧ handlePost ⟨("upload"), some { name := "a.txt", err := 0, content := [5] }⟩
        ("aabbccddeeff") 0 false none { metas := [], objects := [] } =
      (.internalError, { metas := [], objects := [] }) := by
  refine ⟨?_, ?_, ?_, ?_⟩
  · exact (c6_upload_validation ("aabbccddeeff") ("a.txt") 0 none
      { metas := [], objects := [] } (List.replicate maxSize 0) 0).2.2.1
      (by simp [List.length_replicate])
  · exact (c6_upload_validation ("aabbccddeeff") ("a.txt") 0 none
      { metas := [], objects := [] } (List.replicate (maxSize + 1) 0) 0).2.2.2.1
      (by simp [List.length_replicate])
  · exact (c6_upload_validation ("aabbccddeeff") ("a.txt") 0 none
      { metas := [], objects := [] } [] 4).2.1 (by decide)
  · exact (c6_upload_validation ("aabbccddeeff") ("a.txt") 0 none
      { metas := [], objects := [] } [5] 0).2.2.2.2 (by decide)

/-! ### Claim C9 -/

theorem not_sep_of_alnum {c : Char} (h : c.isAlphanum = true) : c ≠ '/' ∧ c ≠ '\\' := by
  constructor <;> intro hc <;> subst hc <;> exact absurd h (by decide)

/-- C9: the stored filename is derived only from the generated id and the
sanitized fragment of the (fallback-adjusted) original name: it contains no
path separator, so the target path stays inside the upload directory; two
uploads with the same original filename but distinct generated ids get
distinct stored names; and raw names with the same sanitization yield the
same stored name (the raw name itself is never used). -/
theorem c9_stored_location_safety :
    (∀ newId n : String, (∀ c ∈ newId.toList, c.isAlphanum = true) →
        ∀ c ∈ (storedNameOf newId (originalNameOf n)).toList, c ≠ '/' ∧ c ≠ '\\')
    ∧ (∀ id1 id2 n : String, id1 ≠ id2 →
        storedNameOf id1 (originalNameOf n) ≠ storedNameOf id2 (originalNameOf n))
    ∧ (∀ newId n1 n2 : String, safeNameOf n1 = safeNameOf n2 →
        storedNameOf newId n1 = storedNameOf newId n2)
    ∧ (∀ newId n : String,
        targetPathOf newId n = uploadDir ++ "/" ++ storedNameOf newId (originalNameOf n)) := by
  refine ⟨?_, ?_, ?_, fun _ _ => rfl⟩
  · intro newId n hid c hc
    rcases mem_storedNameOf hc with h | h | h | h | h
    · exact not_sep_of_alnum (hid c h)
    · subst h
      exact ⟨by decide, by decide⟩
    · exact not_sep_of_alnum h
    · subst h
      exact ⟨by decide, by decide⟩
    · subst h
      exact ⟨by decide, by decide⟩
  · intro id1 id2 n hne heq
    exact hne (storedNameOf_inj heq)
  · intro newId n1 n2 h
    unfold storedNameOf
    rw [h]

/-- C9 witness: a concrete sanitized stored name contains no separator, two
distinct ids give distinct stored names for the same filename, and two names
sanitizing alike share a stored name. -/
theorem c9_witness :
    (∀ c ∈ (storedNameOf ("aabbccddeeff") (originalNameOf ("my file/..\\evil.txt"))).toList,
        c ≠ '/' ∧ c ≠ '\\')
    ∧ storedNameOf ("aabbccddeeff") (originalNameOf ("a.txt")) ≠
        storedNameOf ("aabbccddeeee") (originalNameOf ("a.txt"))
    ∧ storedNameOf ("aabbccddeeff") ("a b.txt") = storedNameOf ("aabbccddeeff") ("a?b.txt") := by
  refine ⟨?_, ?_, ?_⟩
  · exact c9_stored_location_safety.1 ("aabbccddeeff") ("my file/..\\evil.txt") (by decide)
  · exact c9_stored_location_safety.2.1 ("aabbccddeeff") ("aabbccddeeee") ("a.txt") (by decide)
  · exact c9_stored_location_safety.2.2.1 ("aabbccddeeff") ("a b.txt") ("a?b.txt") (by decide)

/-! ### Upload-then-read trace lemmas -/

theorem expiredPointsTo_uploadRecord {now2 now : Int} (p newId n : String) (len : Nat)
    (hlive : ¬ now + expirationHours * 3600 < now2) :
    expiredPointsTo now2 p (newId, MetaContent.record (uploadRecord newId n len now)) = false := by
  simp [expiredPointsTo, uploadRecord, hlive]

theorem metaExpired_uploadRecord {now2 now : Int} (newId n : String) (len : Nat)
    (hlive : ¬ now + expirationHours * 3600 < now2) :
    metaExpired now2 (MetaContent.record (uploadRecord newId n len now)) = false := by
  simp [metaExpired, uploadRecord, hlive]

theorem cleanup_uploadCommit_meta {n : String} {payload : List Nat} {newId : String}
    {now now2 : Int} {zv : Option (List ZipEntry)} {s : Store}
    (hlive : ¬ now + expirationHours * 3600 < now2) :
    lookupKey newId
        (cleanupExpired now2 (uploadCommit newId (FilePart.mk n 0 payload) now zv s)).metas =
      some (MetaContent.record (uploadRecord newId n payload.length now)) := by
  apply cleanup_keeps_meta
  · simp [uploadCommit, lookupKey]
  · exact metaExpired_uploadRecord newId n payload.length hlive

theorem cleanup_uploadCommit_object {n : String} {payload : List Nat} {newId : String}
    {now now2 : Int} {zv : Option (List ZipEntry)} {s : Store}
    (hjunk : ∀ q ∈ s.metas, expiredPointsTo now2 (targetPathOf newId n) q = false)
    (hlive : ¬ now + expirationHours * 3600 < now2) :
    lookupKey (targetPathOf newId n)
        (cleanupExpired now2 (uploadCommit newId (FilePart.mk n 0 payload) now zv s)).objects =
      some (FileContent.mk payload zv) := by
  apply cleanup_keeps_object
  · simp [uploadCommit, lookupKey, uploadRecord]
  · simp only [uploadCommit, List.any_cons, Bool.or_eq_false_iff]
    refine ⟨expiredPointsTo_uploadRecord _ newId n payload.length hlive, ?_⟩
    rw [List.any_eq_false]
    intro q hq
    rw [hjunk q (mem_removeKey hq)]
    exact Bool.false_ne_true

/-! ### Claim C1 -/

/-- C1 counterexample: a file submitted under the legal filename 0 uploads
successfully, but the download answers with disposition and header filename
fileshare.bin, not the submitted name, because the PHP falsy check
`$upload['name'] ?: 'fileshare.bin'` swallows the string 0. -/
theorem c1_counterexample :
    (handlePost ⟨("upload"), some (FilePart.mk ("0") 0 [1, 2, 3])⟩
        ("aabbccddeeff") 0 true none { metas := [], objects := [] }).1 =
      UploadResult.ok ("aabbccddeeff") ("fileshare.bin")
        ("http://localhost/fileShare.php?id=aabbccddeeff") 172800 3
    ∧ (serveGet false ("aabbccddeeff") 10
        (handlePost ⟨("upload"), some (FilePart.mk ("0") 0 [1, 2, 3])⟩
          ("aabbccddeeff") 0 true none { metas := [], objects := [] }).2).1 =
      GetResult.downloadOk 3 ("fileshare.bin") ("fileshare.bin") [1, 2, 3]
    ∧ ("fileshare.bin" : String) ≠ ("0")  := by
  refine ⟨by decide, by decide, by decide⟩

/-- C1 (amended): for every successfully uploaded payload whose submitted
filename is not PHP-falsy (not empty and not the string 0), downloading the
returned id before expiry streams exactly the uploaded bytes with a
Content-Length equal to their count, and both the Content-Disposition
filename and the X-Fileshare-Filename header equal the submitted filename —
never the storage id or the sanitized stored name; a falsy submitted name is
replaced by the fallback fileshare.bin at upload time and that fallback is
what the download reports. -/
theorem c1_roundtrip (n : String) (payload : List Nat) (newId : String) (now now2 : Int)
    (zv : Option (List ZipEntry)) (s : Store)
    (hn : phpFalsyStr n = false)
    (hsize : payload.length ≤ maxSize)
    (hid1 : stripId newId = newId)
    (hid2 : phpFalsyStr newId = false)
    (hjunk : ∀ q ∈ s.metas, expiredPointsTo now2 (targetPathOf newId n) q = false)
    (hlive : ¬ now + expirationHours * 3600 < now2) :
    (handlePost ⟨("upload"), some (FilePart.mk n 0 payload)⟩ newId now true zv s).1 =
      .ok newId n (baseUrlStr ++ "?id=" ++ newId) (now + expirationHours * 3600) payload.length
    ∧ serveGet false newId now2
        (handlePost ⟨("upload"), some (FilePart.mk n 0 payload)⟩ newId now true zv s).2 =
      (.downloadOk payload.length n n payload,
       cleanupExpired now2
         (handlePost ⟨("upload"), some (FilePart.mk n 0 payload)⟩ newId now true zv s).2) := by
  have hname : originalNameOf n = n := by simp [originalNameOf, hn]
  have hup := @handlePost_success (FilePart.mk n 0 payload) newId now zv s rfl hsize
  constructor
  · rw [hup, hname]
  · rw [hup]
    have hid : phpFalsyStr (stripId newId) = false := by rw [hid1]; exact hid2
    have hmeta : lookupKey (stripId newId)
        (cleanupExpired now2 (uploadCommit newId (FilePart.mk n 0 payload) now zv s)).metas =
        some (MetaContent.record (uploadRecord newId n payload.length now)) := by
      rw [hid1]
      exact cleanup_uploadCommit_meta hlive
    have hpath : phpFalsyStr (uploadRecord newId n payload.length now).path = false :=
      phpFalsyStr_targetPathOf newId n
    have hobj : lookupKey (uploadRecord newId n payload.length now).path
        (cleanupExpired now2 (uploadCommit newId (FilePart.mk n 0 payload) now zv s)).objects =
        some (FileContent.mk payload zv) :=
      cleanup_uploadCommit_object hjunk hlive
    have hdl := @handleGet_download newId now2 _ _ _ _ hid hmeta hpath hobj rfl hlive
    show handleGet false newId now2 _ = _
    rw [hdl]
    simp [uploadRecord, hname]

/-- C1 witness: uploading three bytes under the name a.txt and downloading the
id returns exactly those bytes, length 3, and filename a.txt in both headers. -/
theorem c1_witness :
    (handlePost ⟨("upload"), some (FilePart.mk ("a.txt") 0 [1, 2, 3])⟩
        ("aabbccddeeff") 0 true none { metas := [], objects := [] }).1 =
      .ok ("aabbccddeeff") ("a.txt") (baseUrlStr ++ "?id=" ++ ("aabbccddeeff"))
        (0 + expirationHours * 3600) ([1, 2, 3] : List Nat).length
    ∧ serveGet false ("aabbccddeeff") 100
        (handlePost ⟨("upload"), some (FilePart.mk ("a.txt") 0 [1, 2, 3])⟩
          ("aabbccddeeff") 0 true none { metas := [], objects := [] }).2 =
      (.downloadOk ([1, 2, 3] : List Nat).length ("a.txt") ("a.txt") [1, 2, 3],
       cleanupExpired 100
         (handlePost ⟨("upload"), some (FilePart.mk ("a.txt") 0 [1, 2, 3])⟩
           ("aabbccddeeff") 0 true none { metas := [], objects := [] }).2) :=
  c1_roundtrip ("a.txt") [1, 2, 3] ("aabbccddeeff") 0 100 none { metas := [], objects := [] }
    (by decide) (by decide) (by decide) (by decide) (by simp) (by decide)

theorem handleGet_fatal {isInfo : Bool} {raw : String} {now : Int} {s : Store}
    {m : MetaRec} {fc : FileContent}
    (hid : phpFalsyStr (stripId raw) = false)
    (hmeta : lookupKey (stripId raw) s.metas = some (MetaContent.record m))
    (hpath : phpFalsyStr m.path = false)
    (hobj : lookupKey m.path s.objects = some fc)
    (he : m.expiresAt = none) :
    handleGet isInfo raw now s = (.fatal, s) := by
  simp [handleGet, hid, hmeta, hpath, hobj, he]

/-! ### Claim C2 -/

/-- C2: a valid upload stores and reports a size equal to the exact byte count
of the payload; the record fixes expiresAt = uploadedAt + 48h at creation; an
immediate info request reports the same size and identical timestamps; and no
read operation or sweep ever modifies a surviving record (records are only
ever removed, never rewritten, so expiresAt is never extended). -/
theorem c2_size_and_expiry (n : String) (payload : List Nat) (newId : String) (now now2 : Int)
    (zv : Option (List ZipEntry)) (s : Store)
    (hsize : payload.length ≤ maxSize)
    (hid1 : stripId newId = newId) (hid2 : phpFalsyStr newId = false)
    (hjunk : ∀ q ∈ s.metas, expiredPointsTo now2 (targetPathOf newId n) q = false)
    (hlive : ¬ now + expirationHours * 3600 < now2) :
    (handlePost ⟨("upload"), some (FilePart.mk n 0 payload)⟩ newId now true zv s).1 =
      .ok newId (originalNameOf n) (baseUrlStr ++ "?id=" ++ newId)
        (now + expirationHours * 3600) payload.length
    ∧ lookupKey newId
        (handlePost ⟨("upload"), some (FilePart.mk n 0 payload)⟩ newId now true zv s).2.metas =
        some (MetaContent.record (uploadRecord newId n payload.length now))
    ∧ (uploadRecord newId n payload.length now).size = payload.length
    ∧ (∃ e u : Int, (uploadRecord newId n payload.length now).expiresAt = some e
        ∧ (uploadRecord newId n payload.length now).uploadedAt = some u
        ∧ e - u = 48 * 3600)
    ∧ (serveGet true newId now2
        (handlePost ⟨("upload"), some (FilePart.mk n 0 payload)⟩ newId now true zv s).2).1 =
        .infoOk (infoOf
          (cleanupExpired now2
            (handlePost ⟨("upload"), some (FilePart.mk n 0 payload)⟩
              newId now true zv s).2).objects
          (uploadRecord newId n payload.length now))
    ∧ (∀ objs : List (String × FileContent),
        (infoOf objs (uploadRecord newId n payload.length now)).size = payload.length
        ∧ (infoOf objs (uploadRecord newId n payload.length now)).expiresAt =
            some (now + expirationHours * 3600)
        ∧ (infoOf objs (uploadRecord newId n payload.length now)).uploadedAt = some now)
    ∧ (∀ (isInfo : Bool) (raw : String) (n3 : Int) (s3 : Store) (q : String × MetaContent),
        q ∈ (handleGet isInfo raw n3 s3).2.metas → q ∈ s3.metas)
    ∧ (∀ (n3 : Int) (s3 : Store) (q : String × MetaContent),
        q ∈ (cleanupExpired n3 s3).metas → q ∈ s3.metas) := by
  have hup := @handlePost_success (FilePart.mk n 0 payload) newId now zv s rfl hsize
  refine ⟨?_, ?_, rfl, ⟨_, _, rfl, rfl, by simp [expirationHours]⟩, ?_, ?_, ?_, ?_⟩
  · rw [hup]
  · rw [hup]
    simp [uploadCommit, lookupKey]
  · rw [hup]
    have hid : phpFalsyStr (stripId newId) = false := by rw [hid1]; exact hid2
    have hmeta : lookupKey (stripId newId)
        (cleanupExpired now2 (uploadCommit newId (FilePart.mk n 0 payload) now zv s)).metas =
        some (MetaContent.record (uploadRecord newId n payload.length now)) := by
      rw [hid1]
      exact cleanup_uploadCommit_meta hlive
    have hpath : phpFalsyStr (uploadRecord newId n payload.length now).path = false :=
      phpFalsyStr_targetPathOf newId n
    have hobj : lookupKey (uploadRecord newId n payload.length now).path
        (cleanupExpired now2 (uploadCommit newId (FilePart.mk n 0 payload) now zv s)).objects =
        some (FileContent.mk payload zv) :=
      cleanup_uploadCommit_object hjunk hlive
    have hinfo := @handleGet_info newId now2 _ _ _ _ hid hmeta hpath hobj rfl hlive
    show (handleGet true newId now2 _).1 = _
    rw [hinfo]
  · intro objs
    exact ⟨rfl, rfl, rfl⟩
  · intro isInfo raw n3 s3 q hq
    by_cases hid : phpFalsyStr (stripId raw) = true
    · rw [handleGet_badRequest hid] at hq
      exact hq
    · simp only [Bool.not_eq_true] at hid
      cases hmeta : lookupKey (stripId raw) s3.metas with
      | none =>
        rw [handleGet_noMeta hid hmeta] at hq
        exact hq
      | some c =>
        cases c with
        | malformed =>
          rw [handleGet_malformed hid hmeta] at hq
          exact mem_removeKey hq
        | record m =>
          by_cases hpath : phpFalsyStr m.path = true
          · rw [handleGet_noBytes hid hmeta (Or.inl hpath)] at hq
            exact mem_removeKey hq
          · simp only [Bool.not_eq_true] at hpath
            cases hobj : lookupKey m.path s3.objects with
            | none =>
              rw [handleGet_noBytes hid hmeta (Or.inr hobj)] at hq
              exact mem_removeKey hq
            | some fc =>
              cases he : m.expiresAt with
              | none =>
                rw [handleGet_fatal hid hmeta hpath hobj he] at hq
                exact hq
              | some e =>
                by_cases hlt : e < n3
                · rw [handleGet_expired hid hmeta hpath hobj he hlt] at hq
                  exact mem_removeKey hq
                · cases isInfo with
                  | true =>
                    rw [handleGet_info hid hmeta hpath hobj he hlt] at hq
                    exact hq
                  | false =>
                    rw [handleGet_download hid hmeta hpath hobj he hlt] at hq
                    exact hq
  · intro n3 s3 q hq
    rw [cleanupExpired_metas] at hq
    exact (List.mem_filter.mp hq).1

/-- C2 witness: a three-byte upload reports size 3, the stored record has
expiresAt exactly 48 hours after uploadedAt, and the immediate info response
carries that same record. -/
theorem c2_witness :
    (handlePost ⟨("upload"), some (FilePart.mk ("a.txt") 0 [1, 2, 3])⟩
        ("aabbccddeeff") 0 true none { metas := [], objects := [] }).1 =
      .ok ("aabbccddeeff") (originalNameOf ("a.txt"))
        (baseUrlStr ++ "?id=" ++ ("aabbccddeeff"))
        (0 + expirationHours * 3600) ([1, 2, 3] : List Nat).length
    ∧ (∃ e u : Int,
        (uploadRecord ("aabbccddeeff") ("a.txt") ([1, 2, 3] : List Nat).length 0).expiresAt = some e
        ∧ (uploadRecord ("aabbccddeeff") ("a.txt") ([1, 2, 3] : List Nat).length 0).uploadedAt =
            some u
        ∧ e - u = 48 * 3600)
    ∧ (serveGet true ("aabbccddeeff") 100
        (handlePost ⟨("upload"), some (FilePart.mk ("a.txt") 0 [1, 2, 3])⟩
          ("aabbccddeeff") 0 true none { metas := [], objects := [] }).2).1 =
        .infoOk (infoOf
          (cleanupExpired 100
            (handlePost ⟨("upload"), some (FilePart.mk ("a.txt") 0 [1, 2, 3])⟩
              ("aabbccddeeff") 0 true none { metas := [], objects := [] }).2).objects
          (uploadRecord ("aabbccddeeff") ("a.txt") ([1, 2, 3] : List Nat).length 0)) := by
  have h := c2_size_and_expiry ("a.txt") [1, 2, 3] ("aabbccddeeff") 0 100 none
    { metas := [], objects := [] } (by decide) (by decide) (by decide) (by simp) (by decide)
  exact ⟨h.1, h.2.2.2.1, h.2.2.2.2.1⟩

/-! ### Claim C4 -/

/-- C4 counterexample: a record expired well before the request does not
produce Gone: the pre-request sweep removes it first, so the handler's lookup
fails and the full request answers NotFound (404), not Gone (410). -/
theorem c4_counterexample :
    serveGet false ("aabbccddeeff") 5
        { metas := [("aabbccddeeff", MetaContent.record
            { id := "aabbccddeeff", filename := "a.txt",
              storedName := "aabbccddeeff__a.txt",
              path := "uploads/aabbccddeeff__a.txt", size := 2,
              expiresAt := some 0, uploadedAt := some 0 })],
          objects := [("uploads/aabbccddeeff__a.txt", FileContent.mk [1, 2] none)] } =
      (.notFound, { metas := [], objects := [] })
    ∧ GetResult.notFound ≠ GetResult.gone := by
  refine ⟨by decide, by decide⟩

/-- C4 (amended): for a stored record whose expiry is in the past, a full
Info/Download request answers NotFound, because the pre-request sweep has
already deleted the bytes and then the metadata before the handler runs, and
afterwards neither the record nor its bytes exist in storage; the handler's
own expiry branch — reached only when the record still exists at handler
time — answers Gone and performs the same delete-bytes-then-metadata
cleanup. -/
theorem c4_expired_access (isInfo : Bool) (raw : String) (now : Int) (s : Store)
    (m : MetaRec) (fc : FileContent) (e : Int)
    (hnd : (s.metas.map Prod.fst).Nodup)
    (hid : phpFalsyStr (stripId raw) = false)
    (hmeta : lookupKey (stripId raw) s.metas = some (MetaContent.record m))
    (hpath : phpFalsyStr m.path = false)
    (hobj : lookupKey m.path s.objects = some fc)
    (he : m.expiresAt = some e) (hlt : e < now) :
    ((serveGet isInfo raw now s).1 = .notFound
      ∧ lookupKey (stripId raw) (serveGet isInfo raw now s).2.metas = none
      ∧ lookupKey m.path (serveGet isInfo raw now s).2.objects = none)
    ∧ handleGet isInfo raw now s =
        (.gone, { metas := removeKey (stripId raw) s.metas,
                  objects := removeKey m.path s.objects }) := by
  have hmetaDrop : lookupKey (stripId raw) (cleanupExpired now s).metas = none :=
    cleanup_drops_meta hnd hmeta (by simp [metaExpired, he, hlt])
  have hany : s.metas.any (expiredPointsTo now m.path) = true :=
    List.any_eq_true.mpr ⟨_, lookupKey_mem hmeta, by simp [expiredPointsTo, he, hlt, hpath]⟩
  have hobjDrop : lookupKey m.path (cleanupExpired now s).objects = none :=
    cleanup_drops_object hany
  have hserve : serveGet isInfo raw now s = (.notFound, cleanupExpired now s) :=
    handleGet_noMeta hid hmetaDrop
  refine ⟨⟨?_, ?_, ?_⟩, handleGet_expired hid hmeta hpath hobj he hlt⟩
  · rw [hserve]
  · rw [hserve]
    exact hmetaDrop
  · rw [hserve]
    exact hobjDrop

/-- C4 witness: a concrete expired record yields NotFound on the full request
with both halves gone from storage, while the bare handler branch yields Gone
with the same cleanup. -/
theorem c4_witness :
    ((serveGet false ("aabbccddeeff") 5
        { metas := [("aabbccddeeff", MetaContent.record
            { id := "aabbccddeeff", filename := "a.txt",
              storedName := "aabbccddeeff__a.txt",
              path := "uploads/aabbccddeeff__a.txt", size := 2,
              expiresAt := some 0, uploadedAt := some 0 })],
          objects := [("uploads/aabbccddeeff__a.txt", FileContent.mk [1, 2] none)] }).1 =
        .notFound
      ∧ lookupKey (stripId ("aabbccddeeff"))
          (serveGet false ("aabbccddeeff") 5
            { metas := [("aabbccddeeff", MetaContent.record
                { id := "aabbccddeeff", filename := "a.txt",
                  storedName := "aabbccddeeff__a.txt",
                  path := "uploads/aabbccddeeff__a.txt", size := 2,
                  expiresAt := some 0, uploadedAt := some 0 })],
              objects := [("uploads/aabbccddeeff__a.txt", FileContent.mk [1, 2] none)] }).2.metas
          = none
      ∧ lookupKey ("uploads/aabbccddeeff__a.txt")
          (serveGet false ("aabbccddeeff") 5
            { metas := [("aabbccddeeff", MetaContent.record
                { id := "aabbccddeeff", filename := "a.txt",
                  storedName := "aabbccddeeff__a.txt",
                  path := "uploads/aabbccddeeff__a.txt", size := 2,
                  expiresAt := some 0, uploadedAt := some 0 })],
              objects := [("uploads/aabbccddeeff__a.txt", FileContent.mk [1, 2] none)] }).2.objects
          = none)
    ∧ handleGet false ("aabbccddeeff") 5
        { metas := [("aabbccddeeff", MetaContent.record
            { id := "aabbccddeeff", filename := "a.txt",
              storedName := "aabbccddeeff__a.txt",
              path := "uploads/aabbccddeeff__a.txt", size := 2,
              expiresAt := some 0, uploadedAt := some 0 })],
          objects := [("uploads/aabbccddeeff__a.txt", FileContent.mk [1, 2] none)] } =
        (.gone, { metas := [], objects := [] }) := by
  have h := c4_expired_access false ("aabbccddeeff") 5
    { metas := [("aabbccddeeff", MetaContent.record
        { id := "aabbccddeeff", filename := "a.txt",
          storedName := "aabbccddeeff__a.txt",
          path := "uploads/aabbccddeeff__a.txt", size := 2,
          expiresAt := some 0, uploadedAt := some 0 })],
      objects := [("uploads/aabbccddeeff__a.txt", FileContent.mk [1, 2] none)] }
    { id := "aabbccddeeff", filename := "a.txt", storedName := "aabbccddeeff__a.txt",
      path := "uploads/aabbccddeeff__a.txt", size := 2, expiresAt := some 0,
      uploadedAt := some 0 }
    (FileContent.mk [1, 2] none) 0
    (by decide) (by decide) (by decide) (by decide) (by decide) rfl (by decide)
  refine ⟨h.1, ?_⟩
  rw [h.2]
  decide

/-! ### Claim C8 -/

/-- C8 counterexample: backing bytes with no metadata record: an Info request
for the very id embedded in the orphan object's stored name answers NotFound
but deletes nothing — the stray bytes survive the access untouched, where the
claim demands the stray half be deleted by the next operation touching the
id. -/
theorem c8_counterexample :
    serveGet true ("deadbeefdead") 5
        { metas := [],
          objects := [("uploads/deadbeefdead__f.bin", FileContent.mk [7] none)] } =
      (.notFound,
       { metas := [],
         objects := [("uploads/deadbeefdead__f.bin", FileContent.mk [7] none)] }) := by
  decide

/-- C8 (amended): partial state is reported to the Info/Download caller as
NotFound, never InternalError; a metadata record whose backing bytes are
absent (or whose path is falsy) is itself deleted by that access; but
orphaned backing bytes whose metadata record is absent are never deleted —
the access answers NotFound and every object not pointed to by some expired
record survives unchanged. -/
theorem c8_partial_state (isInfo : Bool) (raw : String) (now : Int) (s : Store) :
    (∀ m : MetaRec,
        phpFalsyStr (stripId raw) = false →
        lookupKey (stripId raw) s.metas = some (MetaContent.record m) →
        (phpFalsyStr m.path = true ∨ lookupKey m.path s.objects = none) →
        handleGet isInfo raw now s =
          (.notFound, { s with metas := removeKey (stripId raw) s.metas })
        ∧ lookupKey (stripId raw) (handleGet isInfo raw now s).2.metas = none)
    ∧ (phpFalsyStr (stripId raw) = false →
        lookupKey (stripId raw) s.metas = none →
        (serveGet isInfo raw now s).1 = .notFound
        ∧ (∀ (p : String) (b : FileContent), lookupKey p s.objects = some b →
            s.metas.any (expiredPointsTo now p) = false →
            lookupKey p (serveGet isInfo raw now s).2.objects = some b)) := by
  constructor
  · intro m hid hmeta hmiss
    have h := @handleGet_noBytes isInfo raw now s m hid hmeta hmiss
    refine ⟨h, ?_⟩
    rw [h]
    exact lookupKey_removeKey_self _ _
  · intro hid hmeta
    have hmeta2 : lookupKey (stripId raw) (cleanupExpired now s).metas = none := by
      rw [cleanupExpired_metas]
      exact lookupKey_filter_none_of_none hmeta
    have hserve : serveGet isInfo raw now s = (.notFound, cleanupExpired now s) :=
      handleGet_noMeta hid hmeta2
    refine ⟨by rw [hserve], ?_⟩
    intro p b hb hno
    rw [hserve]
    exact cleanup_keeps_object hb hno

/-- C8 witness: a record pointing at missing bytes is removed and reported
NotFound; an orphan object survives a request for its embedded id, which is
reported NotFound. -/
theorem c8_witness :
    (handleGet true ("aabbccddeeff") 5
        { metas := [("aabbccddeeff", MetaContent.record
            { id := "aabbccddeeff", filename := "a.txt",
              storedName := "aabbccddeeff__a.txt",
              path := "uploads/aabbccddeeff__a.txt", size := 2,
              expiresAt := some 9, uploadedAt := some 0 })],
          objects := [] } =
      (.notFound, { metas := [], objects := [] }))
    ∧ ((serveGet true ("deadbeefdead") 5
          { metas := [],
            objects := [("uploads/deadbeefdead__f.bin", FileContent.mk [7] none)] }).1 =
        .notFound
      ∧ lookupKey ("uploads/deadbeefdead__f.bin")
          (serveGet true ("deadbeefdead") 5
            { metas := [],
              objects := [("uploads/deadbeefdead__f.bin", FileContent.mk [7] none)] }).2.objects =
        some (FileContent.mk [7] none)) := by
  constructor
  · have h := ((c8_partial_state true ("aabbccddeeff") 5
      { metas := [("aabbccddeeff", MetaContent.record
          { id := "aabbccddeeff", filename := "a.txt",
            storedName := "aabbccddeeff__a.txt",
            path := "uploads/aabbccddeeff__a.txt", size := 2,
            expiresAt := some 9, uploadedAt := some 0 })],
        objects := [] }).1
      { id := "aabbccddeeff", filename := "a.txt", storedName := "aabbccddeeff__a.txt",
        path := "uploads/aabbccddeeff__a.txt", size := 2, expiresAt := some 9,
        uploadedAt := some 0 }
      (by decide) (by decide) (Or.inr (by decide))).1
    rw [h]
    decide
  · have h := (c8_partial_state true ("deadbeefdead") 5
      { metas := [],
        objects := [("uploads/deadbeefdead__f.bin", FileContent.mk [7] none)] }).2
      (by decide) (by decide)
    exact ⟨h.1, h.2 ("uploads/deadbeefdead__f.bin") (FileContent.mk [7] none)
      (by decide) (by decide)⟩

end FileShare
